import Mathlib

/-!
Verification of the dtn7 node core (`src/core/mod.rs`): the peer registry
(`DtnPeer`, `peers_get_for_node`, `peers_cla_for_node`, `process_peers`) and
the node core (`DtnCore` endpoint registration).  Rust `u64` arithmetic is
embedded over `Nat` with explicit wrapping (release builds) and checked
(debug builds, where underflow panics) subtraction.  Effects are made
explicit: the wall clock becomes a `now : Nat` argument, the config value
`CONFIG.peer_timeout` a `timeout : Nat` argument, the global `PEERS` map a
`List (String × DtnPeer)` argument and the set of registered convergence
layer agents an `active : List String` argument.
-/

namespace Dtn7

/-- The size of the `u64` machine-integer domain. -/
def U64SIZE : Nat := 2 ^ 64

/-- Rust release-mode (wrapping) subtraction on `u64` values represented as
naturals below `U64SIZE`. -/
def u64wrapSub (a b : Nat) : Nat :=
  ((a + U64SIZE) - b) % U64SIZE

/-- Rust debug-mode (checked) subtraction on `u64` values: `none` models the
`attempt to subtract with overflow` panic. -/
def u64checkedSub (a b : Nat) : Option Nat :=
  if b ≤ a then some (a - b) else none

/-- Modelled from the spec: `bp7::EndpointID` (the `bp7` crate is not part of
`src/`).  An endpoint identifier names a node and, optionally, a specific
service at that node; `node_part` extracts the node-identifying component,
which may be absent. -/
structure EndpointID where
  scheme : String
  node : Option String
  service : Option String
deriving DecidableEq

/-- Modelled from the spec: the node-identifying component of an endpoint
identifier, shared across all services hosted at that node; absent for
identifiers with no node component. -/
def EndpointID.node_part (e : EndpointID) : Option String :=
  e.node

/-- Modelled from the spec: the string form of an endpoint identifier. -/
def EndpointID.to_string (e : EndpointID) : String :=
  e.scheme ++ "://" ++ (e.node.getD ("")) ++ "/" ++ (e.service.getD (""))

/-- Modelled from the spec: a network address (`std::net::IpAddr`), opaque to
this core. -/
structure IpAddr where
  ip : String
deriving DecidableEq

/-- The `PeerType` enum from `src/core/mod.rs`. -/
inductive PeerType where
  | Static
  | Dynamic
deriving DecidableEq

/-- The `crate::cla::ClaSender` structure: the transport-sender descriptor produced by
`DtnPeer::get_first_cla`. -/
structure ClaSender where
  remote : IpAddr
  port : Option Nat
  agent : String
deriving DecidableEq

/-- The `DtnPeer` structure from `src/core/mod.rs`.  The `u16` ports and the `u64`
`last_contact` timestamp are naturals. -/
structure DtnPeer where
  eid : EndpointID
  addr : IpAddr
  con_type : PeerType
  cla_list : List (String × Option Nat)
  last_contact : Nat
deriving DecidableEq

/-- Rust `DtnPeer::touch`: sets `last_contact` to the current wall-clock time
(`now`, seconds since the epoch). -/
def DtnPeer.touch (p : DtnPeer) (now : Nat) : DtnPeer :=
  { p with last_contact := now }

/-- Rust `DtnPeer::still_valid` in a release build: computes
`now - self.last_contact < CONFIG.peer_timeout` where the subtraction is the
wrapping `u64` subtraction. -/
def DtnPeer.still_valid (p : DtnPeer) (timeout now : Nat) : Bool :=
  u64wrapSub now p.last_contact < timeout

/-- Rust `DtnPeer::still_valid` in a debug build: the same computation with checked
`u64` subtraction, `none` modelling the overflow panic when
`now < last_contact`. -/
def DtnPeer.still_valid_checked (p : DtnPeer) (timeout now : Nat) : Option Bool :=
  (u64checkedSub now p.last_contact).map (fun d => decide (d < timeout))

/-- Rust `DtnPeer::get_node_name`: `self.eid.node_part().unwrap_or_default()`. -/
def DtnPeer.get_node_name (p : DtnPeer) : String :=
  p.eid.node_part.getD ("")

/-- The loop body of `DtnPeer::get_first_cla`: walk the advertised
`cla_list` in order and return a sender for the first entry whose transport
name is among the registered convergence layer agents `active`. -/
def firstCla (addr : IpAddr) (active : List String) :
    List (String × Option Nat) → Option ClaSender
  | [] => none
  | c :: rest =>
    if active.contains c.1 then
      some (ClaSender.mk addr c.2 c.1)
    else
      firstCla addr active rest

/-- Rust `DtnPeer::get_first_cla`. -/
def DtnPeer.get_first_cla (p : DtnPeer) (active : List String) : Option ClaSender :=
  firstCla p.addr active p.cla_list

/-- Rust `peers_get_for_node`: linear scan of the `PEERS` registry returning a
clone of the first peer whose node name equals the queried identifier's node
part (`unwrap_or_default`), or `none`. -/
def peers_get_for_node (reg : List (String × DtnPeer)) (eid : EndpointID) :
    Option DtnPeer :=
  match reg with
  | [] => none
  | (_, p) :: rest =>
    if p.get_node_name == eid.node_part.getD ("") then some p
    else peers_get_for_node rest eid

/-- Rust `peers_cla_for_node`: look the peer up by node name, then take its first
supported convergence layer; `none` when no peer is found. -/
def peers_cla_for_node (reg : List (String × DtnPeer)) (active : List String)
    (eid : EndpointID) : Option ClaSender :=
  match peers_get_for_node reg eid with
  | some peer => peer.get_first_cla active
  | none => none

/-- Rust `process_peers`: `PEERS.retain(|_k, v| v.con_type == PeerType::Static || v.still_valid())`,
the liveness sweep over the registry. -/
def process_peers (timeout now : Nat) (reg : List (String × DtnPeer)) :
    List (String × DtnPeer) :=
  reg.filter (fun kv => kv.2.con_type == PeerType.Static || kv.2.still_valid timeout now)

/-- Modelled from the spec: the `ApplicationAgent` capability (its module is
not part of `src/`) exposes an endpoint identifier via `eid()`; nothing more
is needed by the node core. -/
structure ApplicationAgent where
  eid : EndpointID
deriving DecidableEq

/-- The `DtnCore` structure, restricted to the endpoint collection the claims are about
(the convergence-layer list and routing agent are opaque collaborators). -/
structure DtnCore where
  endpoints : List ApplicationAgent
deriving DecidableEq

/-- Rust `Iterator::position` as used by `DtnCore::unregister_application_agent`:
index of the first element satisfying the predicate. -/
def position (p : α → Bool) : List α → Option Nat
  | [] => none
  | a :: l => if p a then some 0 else (position p l).map (· + 1)

/-- Rust `DtnCore::register_application_agent`: appends the agent to the endpoint
collection. -/
def DtnCore.register_application_agent (core : DtnCore) (aa : ApplicationAgent) :
    DtnCore :=
  { core with endpoints := core.endpoints ++ [aa] }

/-- Rust `DtnCore::unregister_application_agent`:
`self.endpoints.iter().position(|n| n.eid() == aa.eid()).map(|e| self.endpoints.remove(e))`. -/
def DtnCore.unregister_application_agent (core : DtnCore) (aa : ApplicationAgent) :
    DtnCore :=
  match position (fun n => n.eid == aa.eid) core.endpoints with
  | some i => { core with endpoints := core.endpoints.eraseIdx i }
  | none => core

/-- Rust `DtnCore::eids`: the string forms of all registered endpoint identifiers,
in collection order. -/
def DtnCore.eids (core : DtnCore) : List String :=
  core.endpoints.map (fun e => e.eid.to_string)

/-- State-passing rendering of the `peers_get_for_node` loop: the first list
is the iteration sequence, the second the registry state threaded through
each iteration (the loop only reads it). -/
def peers_get_for_node_loop (eid : EndpointID) :
    List (String × DtnPeer) → List (String × DtnPeer) →
      Option DtnPeer × List (String × DtnPeer)
  | [], reg => (none, reg)
  | (_, p) :: rest, reg =>
    if p.get_node_name == eid.node_part.getD ("") then (some p, reg)
    else peers_get_for_node_loop eid rest reg

/-- Rust `peers_get_for_node` as an explicit state transformer on the registry. -/
def peers_get_for_node_st (reg : List (String × DtnPeer)) (eid : EndpointID) :
    Option DtnPeer × List (String × DtnPeer) :=
  peers_get_for_node_loop eid reg reg

/-- Rust `peers_cla_for_node` as an explicit state transformer on the registry. -/
def peers_cla_for_node_st (reg : List (String × DtnPeer)) (active : List String)
    (eid : EndpointID) : Option ClaSender × List (String × DtnPeer) :=
  match peers_get_for_node_st reg eid with
  | (some peer, regOut) => (peer.get_first_cla active, regOut)
  | (none, regOut) => (none, regOut)

/-- A `Dynamic` demonstration peer whose last contact happened at time 10. -/
def peerBackClock : DtnPeer :=
  { eid := { scheme := "dtn", node := some ("n1"), service := none }
    addr := { ip := "10.0.0.1" }
    con_type := PeerType.Dynamic
    cla_list := [("tcp", none)]
    last_contact := 10 }

/-- A `Static` demonstration peer whose last contact happened at time 100. -/
def staticPeer : DtnPeer :=
  { eid := { scheme := "dtn", node := some ("n2"), service := none }
    addr := { ip := "10.0.0.2" }
    con_type := PeerType.Static
    cla_list := []
    last_contact := 100 }

/-- C1: refuted on the code (code bug).  With `now = 5` and
`last_contact = 10` (clock running backward) and `timeout = 20`,
`still_valid` does not clamp the elapsed time to zero: a debug build panics
on the `u64` underflow (checked subtraction yields `none`), and a release
build wraps `now - last_contact` to `2^64 - 5` and reports the peer invalid
instead of still valid. -/
theorem c1_backward_clock_not_clamped :
    peerBackClock.still_valid_checked 20 5 = none ∧
    peerBackClock.still_valid 20 5 = false ∧
    u64wrapSub 5 peerBackClock.last_contact = U64SIZE - 5 :=
  ⟨rfl, rfl, rfl⟩

/-- C2 counterexample: `still_valid` ignores the peer type, so a `Static`
peer with `timeout = 0` evaluated at `now = last_contact = 100` gets
`still_valid = false`, contradicting the claim that `still_valid` returns
true for every `Static` peer regardless of the configured timeout. -/
theorem c2_counterexample :
    staticPeer.con_type = PeerType.Static ∧
    staticPeer.still_valid 0 100 = false :=
  ⟨rfl, rfl⟩

/-- C2 (amended): `still_valid` itself does not consult the peer type, but
the retention predicate the sweep applies,
`con_type == Static || still_valid()`, is true for every `Static` peer
regardless of elapsed time and configured timeout, including timeout = 0. -/
theorem c2_static_always_retained (p : DtnPeer) (timeout now : Nat)
    (h : p.con_type = PeerType.Static) :
    (p.con_type == PeerType.Static || p.still_valid timeout now) = true := by
  simp [h]

/-- Witness for C2 (amended): the `Static` demonstration peer is retained at
timeout 0 and now 100. -/
theorem c2_static_always_retained_witness :
    staticPeer.con_type = PeerType.Static ∧
    (staticPeer.con_type == PeerType.Static || staticPeer.still_valid 0 100) = true :=
  ⟨rfl, c2_static_always_retained staticPeer 0 100 rfl⟩

/-- C8: the sweep is idempotent: running `process_peers` twice with the
same clock reading and timeout equals running it once. -/
theorem c8_sweep_idempotent (timeout now : Nat) (reg : List (String × DtnPeer)) :
    process_peers timeout now (process_peers timeout now reg) =
      process_peers timeout now reg := by
  simp [process_peers, List.filter_filter, Bool.and_self]

/-- A two-entry demonstration registry: a stale `Dynamic` peer and a
`Static` peer. -/
def demoReg : List (String × DtnPeer) :=
  [("n1", peerBackClock), ("n2", staticPeer)]

/-- C3: the sweep keeps a subsequence of the registry with every kept entry
unchanged, and an entry of the registry survives the sweep exactly when it is
not a `Dynamic` peer whose `still_valid` is false. -/
theorem c3_sweep_exact (timeout now : Nat) (reg : List (String × DtnPeer)) :
    List.Sublist (process_peers timeout now reg) reg ∧
    ∀ kv, kv ∈ reg →
      (kv ∈ process_peers timeout now reg ↔
        ¬(kv.2.con_type = PeerType.Dynamic ∧ kv.2.still_valid timeout now = false)) := by
  constructor
  · exact List.filter_sublist reg
  · intro kv hkv
    rw [process_peers, List.mem_filter]
    cases hct : kv.2.con_type with
    | Static => simp [hkv, hct]
    | Dynamic =>
      cases hv : kv.2.still_valid timeout now <;> simp [hkv, hct, hv]

/-- Witness for C3: in the demonstration registry the stale `Dynamic` entry
is removed by the sweep at timeout 5 and now 100. -/
theorem c3_sweep_exact_witness :
    ("n1", peerBackClock) ∈ demoReg ∧
    (("n1", peerBackClock) ∈ process_peers 5 100 demoReg ↔
      ¬(peerBackClock.con_type = PeerType.Dynamic ∧
          peerBackClock.still_valid 5 100 = false)) :=
  ⟨by decide, (c3_sweep_exact 5 100 demoReg).2 ("n1", peerBackClock) (by decide)⟩

/-- A `Dynamic` demonstration peer used for the touch and validity claims. -/
def dynPeer : DtnPeer :=
  { eid := { scheme := "dtn", node := some ("n3"), service := none }
    addr := { ip := "10.0.0.3" }
    con_type := PeerType.Dynamic
    cla_list := [("tcp", none)]
    last_contact := 0 }

/-- C6 counterexample: with configured timeout 0, a `Dynamic` peer touched
at time 100 is already invalid at time 100, i.e. immediately after
`touch` `still_valid` is false, contradicting the claim for timeout T = 0. -/
theorem c6_counterexample :
    (dynPeer.touch 100).con_type = PeerType.Dynamic ∧
    (dynPeer.touch 100).still_valid 0 100 = false :=
  ⟨rfl, rfl⟩

/-- C6 (amended): when the configured timeout T is positive, a peer touched
at time t is still valid when checked at time t; and for any T, once more
than T seconds have elapsed (at a clock reading within the u64 range) with
no further touch, `still_valid` is false. -/
theorem c6_touch_validity (p : DtnPeer) (T t e : Nat)
    (hnow : t + e < U64SIZE) :
    (0 < T → (p.touch t).still_valid T t = true) ∧
    (T < e → (p.touch t).still_valid T (t + e) = false) := by
  have he : e < U64SIZE := lt_of_le_of_lt (Nat.le_add_left e t) hnow
  have h1 : u64wrapSub t t = 0 := by
    have h : t + U64SIZE - t = U64SIZE := by omega
    rw [u64wrapSub, h, Nat.mod_self]
  have h2 : u64wrapSub (t + e) t = e := by
    have h : t + e + U64SIZE - t = e + U64SIZE := by omega
    rw [u64wrapSub, h, Nat.add_mod_right]
    exact Nat.mod_eq_of_lt he
  refine ⟨?_, ?_⟩
  · intro hT
    simp [DtnPeer.still_valid, DtnPeer.touch, h1, hT]
  · intro hTe
    simp [DtnPeer.still_valid, DtnPeer.touch, h2]
    omega

/-- Witness for C6 (amended): touching the `Dynamic` demonstration peer at
time 100 with timeout 5 keeps it valid at time 100 and invalid at time 107. -/
theorem c6_touch_validity_witness :
    100 + 7 < U64SIZE ∧
    ((0 < 5 → (dynPeer.touch 100).still_valid 5 100 = true) ∧
      (5 < 7 → (dynPeer.touch 100).still_valid 5 (100 + 7) = false)) :=
  ⟨by decide, c6_touch_validity dynPeer 5 100 7 (by decide)⟩

/-- The `get_first_cla` loop returns the first advertised binding whose
transport name is among the registered agents, as a sender descriptor. -/
theorem firstCla_eq_find (addr : IpAddr) (active : List String)
    (l : List (String × Option Nat)) :
    firstCla addr active l =
      (l.find? (fun c => active.contains c.1)).map
        (fun c => ClaSender.mk addr c.2 c.1) := by
  induction l with
  | nil => rfl
  | cons c rest ih =>
    simp only [firstCla, List.find?]
    cases h : active.contains c.1 with
    | true => rfl
    | false => exact ih

/-- C4: transport resolution looks the peer up by node name and yields, for
the found peer, the first advertised binding (in declared order) whose
transport name is currently registered, as a descriptor built from the
peer's remote address, the binding's optional port and the transport name;
it yields none when no binding matches or when no peer is found. -/
theorem c4_resolve_transport (reg : List (String × DtnPeer)) (active : List String)
    (eid : EndpointID) :
    peers_cla_for_node reg active eid =
      (peers_get_for_node reg eid).bind
        (fun p => (p.cla_list.find? (fun c => active.contains c.1)).map
          (fun c => ClaSender.mk p.addr c.2 c.1)) := by
  cases h : peers_get_for_node reg eid with
  | none => simp [peers_cla_for_node, h]
  | some p => simp [peers_cla_for_node, h, DtnPeer.get_first_cla, firstCla_eq_find]

/-- The registry lookup is the first entry, in registry order, whose stored
node name equals the queried node part. -/
theorem peers_get_for_node_eq_find (reg : List (String × DtnPeer))
    (eid : EndpointID) :
    peers_get_for_node reg eid =
      (reg.find? (fun kv => kv.2.get_node_name == eid.node_part.getD (""))).map
        (fun kv => kv.2) := by
  induction reg with
  | nil => rfl
  | cons kv rest ih =>
    obtain ⟨k0, p0⟩ := kv
    simp only [peers_get_for_node, List.find?]
    cases h : (p0.get_node_name == eid.node_part.getD ("")) with
    | true => rfl
    | false => exact ih

/-- C5: the lookup scans the registry comparing only node-name components
(first match or none), so two queried identifiers sharing a node part
resolve to the same stored peer. -/
theorem c5_lookup_by_node_name (reg : List (String × DtnPeer))
    (eid1 eid2 : EndpointID)
    (h : eid1.node_part.getD ("") = eid2.node_part.getD ("")) :
    peers_get_for_node reg eid1 =
      (reg.find? (fun kv => kv.2.get_node_name == eid1.node_part.getD (""))).map
        (fun kv => kv.2) ∧
    peers_get_for_node reg eid1 = peers_get_for_node reg eid2 := by
  refine ⟨peers_get_for_node_eq_find reg eid1, ?_⟩
  rw [peers_get_for_node_eq_find reg eid1, peers_get_for_node_eq_find reg eid2, h]

/-- A demonstration peer for node `node1` advertising a tcp and a udp
binding. -/
def node1Peer : DtnPeer :=
  { eid := { scheme := "dtn", node := some ("node1"), service := none }
    addr := { ip := "10.0.0.4" }
    con_type := PeerType.Dynamic
    cla_list := [("tcp", none), ("udp", some 4556)]
    last_contact := 50 }

/-- A one-entry demonstration registry holding `node1Peer`. -/
def regNode1 : List (String × DtnPeer) :=
  [("node1", node1Peer)]

/-- The full identifier `dtn://node1/mailbox`. -/
def eidMailbox : EndpointID :=
  { scheme := "dtn", node := some ("node1"), service := some ("mailbox") }

/-- The full identifier `dtn://node1/admin`. -/
def eidAdmin : EndpointID :=
  { scheme := "dtn", node := some ("node1"), service := some ("admin") }

/-- Witness for C5: `dtn://node1/mailbox` and `dtn://node1/admin` resolve to
the same stored peer. -/
theorem c5_lookup_by_node_name_witness :
    eidMailbox.node_part.getD ("") = eidAdmin.node_part.getD ("") ∧
    (peers_get_for_node regNode1 eidMailbox =
        (regNode1.find?
          (fun kv => kv.2.get_node_name == eidMailbox.node_part.getD (""))).map
          (fun kv => kv.2) ∧
      peers_get_for_node regNode1 eidMailbox =
        peers_get_for_node regNode1 eidAdmin) :=
  ⟨rfl, c5_lookup_by_node_name regNode1 eidMailbox eidAdmin rfl⟩

/-- If some registry entry's node name matches the queried node part, the
lookup finds a peer. -/
theorem peers_get_for_node_isSome_of_mem (reg : List (String × DtnPeer))
    (q : EndpointID) (k : String) (p : DtnPeer) (hmem : (k, p) ∈ reg)
    (hmatch : (p.get_node_name == q.node_part.getD ("")) = true) :
    (peers_get_for_node reg q).isSome = true := by
  induction hmem with
  | head rest => simp [peers_get_for_node, hmatch]
  | tail b _ ih =>
    obtain ⟨k0, p0⟩ := b
    cases h0 : (p0.get_node_name == q.node_part.getD ("")) with
    | true => simp [peers_get_for_node, h0]
    | false => simp [peers_get_for_node, h0, ih]

/-- C9: a peer whose identifier has no node component gets the empty string
as node name, and a queried identifier that also lacks a node component
matches such a peer (empty equals empty) instead of reporting no match. -/
theorem c9_empty_node_name_matches (reg : List (String × DtnPeer)) (k : String)
    (p : DtnPeer) (q : EndpointID) (hp : p.eid.node_part = none)
    (hq : q.node_part = none) (hmem : (k, p) ∈ reg) :
    p.get_node_name = "" ∧ (peers_get_for_node reg q).isSome = true := by
  have hpn : p.get_node_name = "" := by
    rw [DtnPeer.get_node_name, hp]
    rfl
  refine ⟨hpn, ?_⟩
  exact peers_get_for_node_isSome_of_mem reg q k p hmem (by simp [hpn, hq])

/-- A demonstration peer whose identifier has no node component. -/
def nodelessPeer : DtnPeer :=
  { eid := { scheme := "dtn", node := none, service := none }
    addr := { ip := "10.0.0.5" }
    con_type := PeerType.Dynamic
    cla_list := []
    last_contact := 60 }

/-- A queried identifier with no node component. -/
def nodelessEid : EndpointID :=
  { scheme := "dtn", node := none, service := some ("ping") }

/-- Witness for C9: the nodeless demonstration peer matches a nodeless
query. -/
theorem c9_empty_node_name_matches_witness :
    nodelessPeer.eid.node_part = none ∧ nodelessEid.node_part = none ∧
    ("x", nodelessPeer) ∈ [("x", nodelessPeer)] ∧
    (nodelessPeer.get_node_name = "" ∧
      (peers_get_for_node [("x", nodelessPeer)] nodelessEid).isSome = true) :=
  ⟨rfl, rfl, by decide,
    c9_empty_node_name_matches [("x", nodelessPeer)] "x" nodelessPeer nodelessEid
      rfl rfl (by decide)⟩

/-- The lookup loop leaves the threaded registry state untouched. -/
theorem peers_get_for_node_loop_frame (eid : EndpointID)
    (iter reg : List (String × DtnPeer)) :
    (peers_get_for_node_loop eid iter reg).2 = reg := by
  induction iter with
  | nil => rfl
  | cons kv rest ih =>
    obtain ⟨k0, p0⟩ := kv
    simp only [peers_get_for_node_loop]
    cases h : (p0.get_node_name == eid.node_part.getD ("")) with
    | true => rfl
    | false => exact ih

/-- The lookup loop computes the same result as the pure lookup. -/
theorem peers_get_for_node_loop_fst (eid : EndpointID)
    (iter reg : List (String × DtnPeer)) :
    (peers_get_for_node_loop eid iter reg).1 = peers_get_for_node iter eid := by
  induction iter with
  | nil => rfl
  | cons kv rest ih =>
    obtain ⟨k0, p0⟩ := kv
    simp only [peers_get_for_node_loop, peers_get_for_node]
    cases h : (p0.get_node_name == eid.node_part.getD ("")) with
    | true => rfl
    | false => exact ih

/-- The state-passing lookup returns the pure result with the registry
unchanged. -/
theorem peers_get_for_node_st_eq (reg : List (String × DtnPeer))
    (eid : EndpointID) :
    peers_get_for_node_st reg eid = (peers_get_for_node reg eid, reg) := by
  rw [peers_get_for_node_st]
  exact Prod.ext (peers_get_for_node_loop_fst eid reg reg)
    (peers_get_for_node_loop_frame eid reg reg)

/-- C10: both lookups are read-only: as state transformers they leave the
registry exactly as it was and return the pure lookup results; touching the
returned peer value yields a fresh timestamp while a repeated lookup on the
post-lookup registry still returns the stored, untouched peer. -/
theorem c10_lookups_read_only (reg : List (String × DtnPeer))
    (active : List String) (eid : EndpointID) :
    (peers_get_for_node_st reg eid).2 = reg ∧
    (peers_cla_for_node_st reg active eid).2 = reg ∧
    (peers_get_for_node_st reg eid).1 = peers_get_for_node reg eid ∧
    (peers_cla_for_node_st reg active eid).1 = peers_cla_for_node reg active eid ∧
    (∀ now p, (peers_get_for_node_st reg eid).1 = some p →
      (p.touch now).last_contact = now ∧
      (peers_get_for_node_st (peers_get_for_node_st reg eid).2 eid).1 = some p) := by
  have hcla : peers_cla_for_node_st reg active eid =
      (peers_cla_for_node reg active eid, reg) := by
    rw [peers_cla_for_node_st, peers_get_for_node_st_eq, peers_cla_for_node]
    cases peers_get_for_node reg eid <;> rfl
  refine ⟨?_, ?_, ?_, ?_, ?_⟩
  · rw [peers_get_for_node_st_eq]
  · rw [hcla]
  · rw [peers_get_for_node_st_eq]
  · rw [hcla]
  · intro now p hp
    refine ⟨rfl, ?_⟩
    rw [peers_get_for_node_st_eq] at hp ⊢
    rw [peers_get_for_node_st_eq]
    exact hp

/-- Witness for C10: looking `dtn://node1/mailbox` up in the demonstration
registry returns the stored peer, touching the returned copy at time 777
stamps the copy, and a repeated lookup still returns the stored peer. -/
theorem c10_lookups_read_only_witness :
    (peers_get_for_node_st regNode1 eidMailbox).1 = some node1Peer ∧
    (node1Peer.touch 777).last_contact = 777 ∧
    (peers_get_for_node_st (peers_get_for_node_st regNode1 eidMailbox).2
      eidMailbox).1 = some node1Peer := by
  have h :=
    (c10_lookups_read_only regNode1 ["tcp"] eidMailbox).2.2.2.2 777 node1Peer
      (by decide)
  exact ⟨by decide, h.1, h.2⟩

/-- Erasing at the found index erases the first satisfying element. -/
theorem position_eraseIdx_eq_eraseP (p : α → Bool) (l : List α) :
    (match position p l with
      | some i => l.eraseIdx i
      | none => l) = l.eraseP p := by
  induction l with
  | nil => rfl
  | cons a l ih =>
    simp only [position, List.eraseP_cons]
    cases h : p a with
    | true => rfl
    | false =>
      simp only [Bool.cond_false]
      cases hp : position p l with
      | none =>
        rw [hp] at ih
        show a :: l = a :: l.eraseP p
        rw [← ih]
      | some i =>
        rw [hp] at ih
        exact congrArg (List.cons a) ih

/-- If no element satisfies the predicate, `position` finds no index. -/
theorem position_eq_none_of_forall (p : α → Bool) (l : List α)
    (h : ∀ a ∈ l, ¬p a = true) : position p l = none := by
  induction l with
  | nil => rfl
  | cons a l ih =>
    have ha : p a = false :=
      Bool.eq_false_iff.mpr (fun hc => h a (List.mem_cons_self a l) hc)
    simp only [position, ha]
    rw [ih (fun b hb => h b (List.mem_cons_of_mem a hb))]
    rfl

/-- C7: registering an agent whose identifier is not yet listed makes the
listed identifiers contain it exactly once; unregistering removes the first
stored endpoint with an equal identifier; unregistering an identifier held
by no stored endpoint changes nothing. -/
theorem c7_register_unregister (core : DtnCore) (aa : ApplicationAgent) :
    ((core.eids).count aa.eid.to_string = 0 →
      ((core.register_application_agent aa).eids).count aa.eid.to_string = 1) ∧
    (core.unregister_application_agent aa).endpoints =
      core.endpoints.eraseP (fun n => n.eid == aa.eid) ∧
    ((∀ e ∈ core.endpoints, ¬e.eid = aa.eid) →
      core.unregister_application_agent aa = core) := by
  refine ⟨?_, ?_, ?_⟩
  · intro h0
    have hreg : (core.register_application_agent aa).eids =
        core.eids ++ [aa.eid.to_string] := by
      simp [DtnCore.eids, DtnCore.register_application_agent]
    rw [hreg, List.count_append, h0]
    simp [List.count_cons]
  · rw [DtnCore.unregister_application_agent,
      ← position_eraseIdx_eq_eraseP (fun n => n.eid == aa.eid) core.endpoints]
    cases position (fun n => n.eid == aa.eid) core.endpoints <;> rfl
  · intro habs
    have hnone : position (fun n => n.eid == aa.eid) core.endpoints = none := by
      apply position_eq_none_of_forall
      intro e he
      simpa using habs e he
    rw [DtnCore.unregister_application_agent, hnone]

/-- A demonstration agent for `dtn://nodeX/svc`. -/
def agentX : ApplicationAgent :=
  { eid := { scheme := "dtn", node := some ("nodeX"), service := some ("svc") } }

/-- A demonstration agent for `dtn://nodeY/svc`, never registered in
`demoCore`. -/
def agentY : ApplicationAgent :=
  { eid := { scheme := "dtn", node := some ("nodeY"), service := some ("svc") } }

/-- A demonstration node core holding only `agentX`. -/
def demoCore : DtnCore :=
  { endpoints := [agentX] }

/-- Witness for C7: registering `agentY` in `demoCore` lists it exactly
once, and unregistering it from `demoCore` (where it is absent) is a no-op
matching first-match erasure. -/
theorem c7_register_unregister_witness :
    (demoCore.eids).count agentY.eid.to_string = 0 ∧
    ((demoCore.register_application_agent agentY).eids).count
      agentY.eid.to_string = 1 ∧
    (demoCore.unregister_application_agent agentY).endpoints =
      demoCore.endpoints.eraseP (fun n => n.eid == agentY.eid) ∧
    demoCore.unregister_application_agent agentY = demoCore := by
  have h := c7_register_unregister demoCore agentY
  exact ⟨by decide, h.1 (by decide), h.2.1, h.2.2 (by decide)⟩

end Dtn7
